import Mathlib

/-!
Verification of the mstickereditor maintenance scripts
(`scripts/keep_mmr.py`, `scripts/rm_unused_thumbs.py`,
`scripts/sync_uploads.py`) against their natural-language specification.

The Python code is shallowly embedded: JSON values become an inductive
type, the result of `json.loads` on a line or a pack file is recorded in
the input (a line is blank, not-JSON, or parses to a value), the
filesystem and the network are oracles supplied as input, and a Python
exception that escapes a function is an `Except.error`.
-/

set_option autoImplicit false

namespace MStickerEditor

/-- A JSON value, as produced by Python's `json.loads`. -/
inductive JsonVal where
  | null : JsonVal
  | bool (b : Bool) : JsonVal
  | num (n : Int) : JsonVal
  | str (s : String) : JsonVal
  | arr (elems : List JsonVal) : JsonVal
  | obj (fields : List (String × JsonVal)) : JsonVal

/-- Python `dict` lookup on the field list of a JSON object (keys are
unique in a parsed JSON object; first match). -/
def lookupField (fs : List (String × JsonVal)) (k : String) : Option JsonVal :=
  (fs.find? (fun p => p.1 == k)).map (fun p => p.2)

/-- Python `dict[k] = v`: replace the value at an existing key in place,
otherwise append the new binding. -/
def setField (fs : List (String × JsonVal)) (k : String) (v : JsonVal) :
    List (String × JsonVal) :=
  if fs.any (fun p => p.1 == k) then
    fs.map (fun p => if p.1 == k then (k, v) else p)
  else
    fs ++ [(k, v)]

/-- `sync_uploads._extract_media_id_from_url`: Python
`url.rsplit("/", 1)[-1]`, the substring after the last `/` (the whole
string when it has no `/`). -/
def extract_media_id_from_url (url : String) : String :=
  String.mk ((url.data.reverse.takeWhile (fun c => c != '/')).reverse)

/-- The part of `s` before its last `/` (empty when `s` has no `/`);
used to state the §4.1 round-trip property. -/
def beforeLastSlash (s : String) : String :=
  String.mk (((s.data.reverse.dropWhile (fun c => c != '/')).drop 1).reverse)

/-- The entire substring after the first `/` of `s`, or `none` when
`s` has no `/`; used to state what the pinning workflow's stricter
extractor returns. -/
def afterFirstSlash (s : String) : Option String :=
  if '/' ∈ s.data then
    some (String.mk ((s.data.dropWhile (fun c => c != '/')).drop 1))
  else none

example : extract_media_id_from_url "mxc://s/b2" = "b2" := by decide
example : extract_media_id_from_url "" = "" := by decide
example : extract_media_id_from_url "abc" = "abc" := by decide
example : beforeLastSlash "mxc://s/b2" = "mxc://s" := by decide

/-! ## Upload-log lines

A line of the `backup/uploads` file, abstracted by the (deterministic)
outcome of Python's `line.strip()` and `json.loads(line.strip())`:
- `blank`: the stripped line is empty;
- `notJson`: the stripped line is non-empty and `json.loads` raises
  `JSONDecodeError`;
- `jsonLine`: the stripped line parses to the JSON value `v`.
`raw` carries the original line text (the code appends the original
line, whitespace included, to its output). -/
inductive UploadLine where
  | blank (raw : String) : UploadLine
  | notJson (raw : String) : UploadLine
  | jsonLine (raw : String) (v : JsonVal) : UploadLine

/-- The original text of a line. -/
def UploadLine.raw : UploadLine → String
  | .blank r => r
  | .notJson r => r
  | .jsonLine r _ => r

/-- How one line is treated: kept verbatim, removed (carrying the
object whose `purpose` was set to `"none"`), or an uncaught
`AttributeError` when the line is valid JSON but not an object. -/
inductive LineStep where
  | keep : LineStep
  | remove (o : JsonVal) : LineStep
  | raise : LineStep

/-- The per-line body of `sync_uploads.filter_uploads_lines`:
a blank line is kept; a non-JSON line is kept (only `JSONDecodeError`
is caught); a line parsing to a JSON object is kept when its `url`
field is missing or not a string, kept when the extracted media ID is
in `present`, and otherwise dropped with the object (its `purpose` set
to `"none"`) recorded; a line parsing to a non-object JSON value
reaches `obj.get("url")`, which raises `AttributeError`. -/
def lineStep (present : List String) (ln : UploadLine) : LineStep :=
  match ln with
  | .blank _ => .keep
  | .notJson _ => .keep
  | .jsonLine _ v =>
    match v with
    | .obj fs =>
      match lookupField fs "url" with
      | some (.str url) =>
        if extract_media_id_from_url url ∈ present then .keep
        else .remove (.obj (setField fs "purpose" (.str "none")))
      | _ => .keep
    | _ => .raise

/-- `sync_uploads.filter_uploads_lines`, processing the lines in order;
an `AttributeError` on any line aborts the whole call
(`Except.error`), discarding all accumulated output. -/
def filter_uploads_lines (lines : List UploadLine) (present : List String) :
    Except String (List UploadLine × List JsonVal) :=
  match lines with
  | [] => .ok ([], [])
  | ln :: rest =>
    match lineStep present ln with
    | .raise => .error "AttributeError: non-object JSON line"
    | .keep =>
      match filter_uploads_lines rest present with
      | .error e => .error e
      | .ok (kept, removed) => .ok (ln :: kept, removed)
    | .remove o =>
      match filter_uploads_lines rest present with
      | .error e => .error e
      | .ok (kept, removed) => .ok (kept, o :: removed)

/-! ## Pack files -/

/-- One entry of the packs directory: its file name, whether it is a
regular file (`os.path.isfile`), and the outcome of opening and
`json.load`-ing it (`none` = the parse raises). -/
structure PackFile where
  name : String
  isFile : Bool
  parsed : Option JsonVal

/-- A directory entry is scanned as a pack when its name ends in
`.json` and is not the literal `index.json` (both collectors use this
same filter). -/
def qualifiesPack (name : String) : Bool :=
  List.isSuffixOf ".json".data name.data && name != "index.json"

/-- Python set insertion (only membership is observable downstream). -/
def addToSet (acc : List String) (x : String) : List String :=
  if x ∈ acc then acc else acc ++ [x]

/-- Python iteration `for s in x` over a JSON value: a list yields its
elements, a dict its keys, a string its characters (as 1-character
strings); anything else raises `TypeError`. -/
def pyIter : JsonVal → Except String (List JsonVal)
  | .arr xs => .ok xs
  | .obj fs => .ok (fs.map (fun p => .str p.1))
  | .str s => .ok (s.data.map (fun c => .str (String.mk [c])))
  | _ => .error "TypeError: not iterable"

/-- Python `x.get(k, d)` on a JSON value: defined for dicts (the value
at `k` when the key is present, `d` otherwise), `AttributeError` on
everything else. -/
def pyGet (x : JsonVal) (k : String) (d : Option JsonVal) :
    Except String (Option JsonVal) :=
  match x with
  | .obj fs =>
    match lookupField fs k with
    | some v => .ok (some v)
    | none => .ok d
  | _ => .error "AttributeError: .get on non-dict"

/-- The per-pack body of `rm_unused_thumbs.collect_used_thumbnails`:
`stickers = data.get("stickers", [])`; for each sticker,
`info = s.get("info", {})`, `thumb_url = info.get("thumbnail_url")`;
skip unless `thumb_url` is a truthy (non-empty) string; add the last
`/`-segment of `thumb_url` to the set when non-empty.  NOTE: only
`info.thumbnail_url` is collected here; the sticker's `id` field is
not read by this collector. -/
def collectFromPackRm (data : JsonVal) (acc : List String) :
    Except String (List String) := do
  let stickersOpt ← pyGet data "stickers" (some (.arr []))
  let elems ← pyIter (stickersOpt.getD (.arr []))
  elems.foldlM (fun acc s => do
    let infoOpt ← pyGet s "info" (some (.obj []))
    let thumbOpt ← pyGet (infoOpt.getD (.obj [])) "thumbnail_url" none
    match thumbOpt with
    | some (.str t) =>
      if t = "" then pure acc
      else
        let fname := extract_media_id_from_url t
        if fname = "" then pure acc else pure (addToSet acc fname)
    | _ => pure acc) acc

/-- The per-directory-entry step of
`rm_unused_thumbs.collect_used_thumbnails`: a qualifying entry whose
JSON parse fails raises `ValueError` (only `JSONDecodeError` is
caught, and re-raised as `ValueError`), aborting the whole run; there
is no `isfile` check, so a qualifying non-file entry makes `open`
raise. -/
def rmPackStep (acc : List String) (p : PackFile) :
    Except String (List String) :=
  if !qualifiesPack p.name then pure acc
  else if !p.isFile then .error "IsADirectoryError"
  else
    match p.parsed with
    | none => .error "ValueError: JSON parse failed"
    | some data => collectFromPackRm data acc

def collect_used_thumbnails (packs : List PackFile) :
    Except String (List String) :=
  packs.foldlM rmPackStep []

/-- The per-pack body of `sync_uploads.collect_media_ids_from_packs`:
`stickers = data.get("stickers")` (raises on non-dict `data`); skip
the pack unless `stickers` is a list; for each sticker that is a dict,
add the extracted media ID of its `id` field (when a string) and of
`info.thumbnail_url` (when `info` is a dict and the url a string). -/
def collectFromPackSync (data : JsonVal) (acc : List String) :
    Except String (List String) := do
  let stickersOpt ← pyGet data "stickers" none
  match stickersOpt with
  | some (.arr ss) =>
    pure (ss.foldl (fun acc s =>
      match s with
      | .obj fs =>
        let acc :=
          match lookupField fs "id" with
          | some (.str sid) => addToSet acc (extract_media_id_from_url sid)
          | _ => acc
        match lookupField fs "info" with
        | some (.obj infoFs) =>
          match lookupField infoFs "thumbnail_url" with
          | some (.str t) => addToSet acc (extract_media_id_from_url t)
          | _ => acc
        | _ => acc
      | _ => acc) acc)
  | _ => pure acc

/-- The per-directory-entry step of
`sync_uploads.collect_media_ids_from_packs`: only regular files are
scanned (`os.path.isfile` guard); a file whose open/`json.load` fails
is skipped with a warning (`except Exception`) and collection
continues. -/
def syncPackStep (acc : List String) (p : PackFile) :
    Except String (List String) :=
  if !qualifiesPack p.name then pure acc
  else if !p.isFile then pure acc
  else
    match p.parsed with
    | none => pure acc
    | some data => collectFromPackSync data acc

def collect_media_ids_from_packs (packs : List PackFile) :
    Except String (List String) :=
  packs.foldlM syncPackStep []

/-! ## Thumbnail listing and pruning -/

/-- One entry of the thumbnails directory. -/
structure ThumbEntry where
  name : String
  isFile : Bool

/-- `rm_unused_thumbs.list_thumbnails`: the names of the regular files
in the directory. -/
def list_thumbnails (entries : List ThumbEntry) : List String :=
  (entries.filter (fun e => e.isFile)).map (fun e => e.name)

/-- The `to_remove` list of `rm_unused_thumbs.remove_unused_thumbnails`:
the listed thumbnails not in the `used` set. -/
def toRemoveList (allThumbs : List String) (used : List String) : List String :=
  allThumbs.filter (fun n => !(used.contains n))

/-- Result of a `remove_unused_thumbnails` run: the returned count, the
file names on which `os.remove` was called, and those actually deleted
(`removeOk` is the filesystem oracle: whether `os.remove` succeeds). -/
structure RemoveRun where
  count : Nat
  attempted : List String
  deleted : List String

/-- `rm_unused_thumbs.remove_unused_thumbnails`: in dry-run mode print
only and return `len(to_remove)`; otherwise call `os.remove` on every
candidate (an `OSError` is reported and skipped) and return the number
of successful deletions. -/
def remove_unused_thumbnails (entries : List ThumbEntry) (used : List String)
    (dryRun : Bool) (removeOk : String → Bool) : RemoveRun :=
  let toRemove := toRemoveList (list_thumbnails entries) used
  if dryRun then
    { count := toRemove.length, attempted := [], deleted := [] }
  else
    let deleted := toRemove.filter removeOk
    { count := deleted.length, attempted := toRemove, deleted := deleted }

/-! ## Media-attribute HTTP client (`keep_mmr`) -/

/-- Result type of `keep_mmr.set_media_purpose`. -/
structure PurgeResult where
  status : Nat
  body : String
deriving DecidableEq

/-- Outcome of one HTTP POST, as the transport oracle reports it:
a response (2xx/3xx), an `HTTPError` (urllib raises these for error
statuses; it always has `.code` and `.read`), or any other exception
(timeout, DNS failure, connection refused, ...). -/
inductive HttpOutcome where
  | success (status : Nat) (body : String) : HttpOutcome
  | httpError (code : Nat) (body : String) : HttpOutcome
  | transportError (desc : String) : HttpOutcome
deriving DecidableEq

/-- `keep_mmr.set_media_purpose`: return the response status/body; an
`HTTPError` becomes its code and error body; any other exception is
caught broadly and becomes status `0` with the exception text as body.
Total: every outcome yields a `PurgeResult`, nothing propagates. -/
def set_media_purpose : HttpOutcome → PurgeResult
  | .success st b => { status := st, body := b }
  | .httpError c b => { status := c, body := b }
  | .transportError d => { status := 0, body := d }

/-- The success criterion used by every caller:
`200 <= result.status < 300`. -/
def statusOk (st : Nat) : Bool :=
  200 ≤ st && st < 300

/-- Python `rest.split("/", 1)`: split at the first `/` into two parts,
or the singleton list when there is no `/`. -/
def pySplitOnce (s : String) : List String :=
  if '/' ∈ s.data then
    [String.mk (s.data.takeWhile (fun c => c != '/')),
     String.mk ((s.data.dropWhile (fun c => c != '/')).drop 1)]
  else [s]

/-- `keep_mmr._extract_media_id`: parse the stripped line as JSON (any
exception, including `.get` on a non-dict, is caught broadly and gives
`None`); require a string `url` starting with `mxc://`; split the rest
at the first `/` and require a non-empty tail; return that tail (the
whole remainder after the first `/`, not the last segment). -/
def extract_media_id (ln : UploadLine) : Option String :=
  match ln with
  | .blank _ => none
  | .notJson _ => none
  | .jsonLine _ v =>
    match v with
    | .obj fs =>
      match lookupField fs "url" with
      | some (.str url) =>
        if List.isPrefixOf "mxc://".data url.data then
          match pySplitOnce (String.mk (url.data.drop 6)) with
          | [_, second] => if second = "" then none else some second
          | _ => none
        else none
      | _ => none
    | _ => none

/-! ## Orchestration entry points -/

/-- Inputs of a `keep_mmr.main` run: whether the uploads file exists,
its lines, the dry-run flag, and the transport oracle giving the
outcome of the POST for each media ID. -/
structure KeepMmrEnv where
  uploadsFileExists : Bool
  uploadsLines : List UploadLine
  dryRun : Bool
  http : String → HttpOutcome

/-- Observable result of a `keep_mmr.main` run: process exit code,
number of lines counted invalid, the requests previewed in dry-run
mode, and the media IDs actually POSTed. -/
structure KeepMmrRun where
  exitCode : Nat
  invalidCount : Nat
  previewed : List String
  httpRequests : List String

/-- `keep_mmr.main`: exit 1 when the uploads file is missing; collect
media IDs line by line (a line whose extraction yields `None` counts
as invalid and is never requested); exit 0 when no valid IDs; in
dry-run print one preview per ID and exit 0; otherwise POST each ID
and exit 0 iff no call had a status outside `[200, 300)`. -/
def keepMmrMain (e : KeepMmrEnv) : KeepMmrRun :=
  if !e.uploadsFileExists then
    { exitCode := 1, invalidCount := 0, previewed := [], httpRequests := [] }
  else
    let mediaIds := e.uploadsLines.filterMap extract_media_id
    let invalid :=
      (e.uploadsLines.filter (fun ln => (extract_media_id ln).isNone)).length
    if mediaIds.isEmpty then
      { exitCode := 0, invalidCount := invalid, previewed := [], httpRequests := [] }
    else if e.dryRun then
      { exitCode := 0, invalidCount := invalid, previewed := mediaIds, httpRequests := [] }
    else
      let failCount := (mediaIds.filter
        (fun mid => !statusOk (set_media_purpose (e.http mid)).status)).length
      { exitCode := if failCount = 0 then 0 else 1, invalidCount := invalid,
        previewed := [], httpRequests := mediaIds }

/-- Inputs of a `sync_uploads.main` run. -/
structure SyncEnv where
  packsDirExists : Bool
  packs : List PackFile
  uploadsFileExists : Bool
  uploadsLines : List UploadLine
  dryRun : Bool
  http : String → HttpOutcome

/-- Observable result of a `sync_uploads.main` run: exit code (an
uncaught exception terminates the process with code 1), media IDs
POSTed, the rewritten uploads content (`none` when not rewritten), and
the removed-entry count the run computes/reports. -/
structure SyncRun where
  exitCode : Nat
  httpRequests : List String
  wroteUploads : Option (List UploadLine)
  removedCount : Nat

/-- The media ID the `sync_uploads.main` loop extracts from a removed
object (`obj.get("url")` then the last `/`-segment).  The non-object
branch is unreachable from `filter_uploads_lines`, which only emits
objects (Python would raise there). -/
def removedUrlMediaId (o : JsonVal) : Option String :=
  match o with
  | .obj fs =>
    match lookupField fs "url" with
    | some (.str u) => some (extract_media_id_from_url u)
    | _ => none
  | _ => none

/-- `sync_uploads.main`: a missing packs dir or uploads file raises
`FileNotFoundError` (exit 1); a pack parsing to non-dict JSON, or a
non-object JSON upload line, raises `AttributeError` (exit 1); dry-run
reports the removed count and returns 0 with no effects; otherwise,
when entries were removed, POST `purpose=none` for each (failures are
only counted and printed), rewrite the uploads file with the kept
lines, and return 0 — the exit code is 0 regardless of HTTP failures. -/
def syncUploadsMain (s : SyncEnv) : SyncRun :=
  if !s.packsDirExists then
    { exitCode := 1, httpRequests := [], wroteUploads := none, removedCount := 0 }
  else
    match collect_media_ids_from_packs s.packs with
    | .error _ =>
      { exitCode := 1, httpRequests := [], wroteUploads := none, removedCount := 0 }
    | .ok present =>
      if !s.uploadsFileExists then
        { exitCode := 1, httpRequests := [], wroteUploads := none, removedCount := 0 }
      else
        match filter_uploads_lines s.uploadsLines present with
        | .error _ =>
          { exitCode := 1, httpRequests := [], wroteUploads := none, removedCount := 0 }
        | .ok (filtered, removedObjs) =>
          if s.dryRun then
            { exitCode := 0, httpRequests := [], wroteUploads := none,
              removedCount := removedObjs.length }
          else if removedObjs.length = 0 then
            { exitCode := 0, httpRequests := [], wroteUploads := none,
              removedCount := 0 }
          else
            { exitCode := 0,
              httpRequests := removedObjs.filterMap removedUrlMediaId,
              wroteUploads := some filtered,
              removedCount := removedObjs.length }

/-- Inputs of a `rm_unused_thumbs.main` run. -/
structure RmEnv where
  packsDirExists : Bool
  packs : List PackFile
  thumbsDirExists : Bool
  thumbs : List ThumbEntry
  dryRun : Bool
  removeOk : String → Bool

/-- Observable result of a `rm_unused_thumbs.main` run. -/
structure RmRun where
  exitCode : Nat
  deleted : List String

/-- `rm_unused_thumbs.main`: `main` has no explicit return, so the
process exits 0 unless an exception escapes (missing packs dir, pack
parse error, missing thumbnails dir); per-file deletion failures are
printed but never change the exit code. -/
def rmUnusedThumbsMain (e : RmEnv) : RmRun :=
  if !e.packsDirExists then { exitCode := 1, deleted := [] }
  else
    match collect_used_thumbnails e.packs with
    | .error _ => { exitCode := 1, deleted := [] }
    | .ok used =>
      if !e.thumbsDirExists then { exitCode := 1, deleted := [] }
      else
        let run := remove_unused_thumbnails e.thumbs used e.dryRun e.removeOk
        { exitCode := 0, deleted := run.deleted }

/-! ## Concrete scenario inputs -/

/-- The end-to-end pruning scenario's single pack: one sticker with
`id = "mxc://s/a1"` and `info.thumbnail_url = "mxc://s/b2"`. -/
def scenarioPack : PackFile :=
  { name := "pack.json", isFile := true,
    parsed := some (.obj [("stickers", .arr
      [.obj [("id", .str "mxc://s/a1"),
             ("info", .obj [("thumbnail_url", .str "mxc://s/b2")])]])]) }

/-- The scenario's thumbnails directory: regular files `a1`, `b2`, `c3`. -/
def scenarioThumbs : List ThumbEntry :=
  [{ name := "a1", isFile := true }, { name := "b2", isFile := true },
   { name := "c3", isFile := true }]

/-- The end-to-end pruning run of the scenario: both directories
exist, `os.remove` always succeeds, live mode. -/
def scenarioRmEnv : RmEnv :=
  { packsDirExists := true, packs := [scenarioPack], thumbsDirExists := true,
    thumbs := scenarioThumbs, dryRun := false, removeOk := fun _ => true }

/-- Upload-sync run whose one upload entry (`z9`) is unreferenced and
whose `set_media_purpose` calls all come back `404`. -/
def envC2 : SyncEnv :=
  { packsDirExists := true, packs := [scenarioPack], uploadsFileExists := true,
    uploadsLines :=
      [.jsonLine "\x7b\"url\": \"mxc://s/z9\"\x7d" (.obj [("url", .str "mxc://s/z9")])],
    dryRun := false, http := fun _ => .httpError 404 "not found" }

/-- A pack-directory entry whose JSON parse fails. -/
def badPack : PackFile :=
  { name := "bad.json", isFile := true, parsed := none }

/-- A `keep_mmr.main` run over one unparseable line and one valid
`q7` entry, all POSTs succeeding. -/
def envC10 : KeepMmrEnv :=
  { uploadsFileExists := true,
    uploadsLines :=
      [.notJson "garbage",
       .jsonLine "\x7b\"url\": \"mxc://s/q7\"\x7d" (.obj [("url", .str "mxc://s/q7")])],
    dryRun := false, http := fun _ => .success 200 "" }

/-! ## Helper lemmas -/

/-- Two strings with the same character data are equal. -/
theorem string_eq_of_data_eq {s t : String} (h : s.data = t.data) : s = t := by
  cases s; cases t; exact congrArg String.mk h

/-- When `/` occurs in `l`, dropping the non-`/` characters reaches an
occurrence of `/`. -/
theorem dropWhile_slash_cons (l : List Char) (h : '/' ∈ l) :
    ∃ t, l.dropWhile (fun c => c != '/') = '/' :: t := by
  induction l with
  | nil => cases h
  | cons c cs ih =>
    by_cases hc : c = '/'
    · subst hc
      exact ⟨cs, by simp [List.dropWhile]⟩
    · have h' : '/' ∈ cs := by
        rcases List.mem_cons.mp h with h | h
        · exact absurd h.symm hc
        · exact h
      obtain ⟨t, ht⟩ := ih h'
      refine ⟨t, ?_⟩
      rw [List.dropWhile_cons]
      simp [hc, ht]

/-- Exit-code characterisation of `keep_mmr.main`: 1 exactly for a
missing uploads file or a live run with a failed call. -/
theorem keepMmr_exit_eq (e : KeepMmrEnv) :
    (keepMmrMain e).exitCode =
      if e.uploadsFileExists = false then 1
      else if e.dryRun = true then 0
      else if ((e.uploadsLines.filterMap extract_media_id).filter
          (fun mid => !statusOk (set_media_purpose (e.http mid)).status)).length = 0 then 0
      else 1 := by
  cases hex : e.uploadsFileExists with
  | false => simp [keepMmrMain, hex]
  | true =>
    by_cases hemp : (e.uploadsLines.filterMap extract_media_id).isEmpty = true
    · have hnil : e.uploadsLines.filterMap extract_media_id = [] := by
        simpa [List.isEmpty_iff] using hemp
      simp only [keepMmrMain, hex, hnil]
      by_cases hd : e.dryRun = true <;> simp [hd]
    · by_cases hd : e.dryRun = true
      · simp [keepMmrMain, hex, hemp, hd]
      · by_cases hfail :
            ((e.uploadsLines.filterMap extract_media_id).filter
              (fun mid => !statusOk (set_media_purpose (e.http mid)).status)).length = 0 <;>
          simp [keepMmrMain, hex, hemp, hd, hfail]

/-- Scanning a directory that contains a qualifying pack whose JSON
parse fails always errors out under the hard-abort policy, whatever
the accumulated set. -/
theorem rm_fold_error_of_bad (packs : List PackFile) (acc : List String)
    (h : ∃ p ∈ packs, qualifiesPack p.name = true ∧ p.isFile = true ∧
      p.parsed = none) :
    ∃ msg, packs.foldlM rmPackStep acc = .error msg := by
  induction packs generalizing acc with
  | nil =>
    obtain ⟨p, hp, -⟩ := h
    cases hp
  | cons q rest ih =>
    simp only [List.foldlM_cons]
    obtain ⟨p, hp, hq, hf, hn⟩ := h
    rcases List.mem_cons.mp hp with rfl | hmem
    · have hstep : rmPackStep acc p = .error "ValueError: JSON parse failed" := by
        unfold rmPackStep
        rw [hq, hf, hn]
        rfl
      rw [hstep]
      exact ⟨_, rfl⟩
    · cases hstep : rmPackStep acc q with
      | error msg => exact ⟨msg, rfl⟩
      | ok acc' => exact ih acc' ⟨p, hmem, hq, hf, hn⟩

/-- Under the skip-and-continue policy, deleting the qualifying
regular files whose JSON parse fails from the listing changes
nothing. -/
theorem sync_fold_skips_bad (packs : List PackFile) (acc : List String) :
    packs.foldlM syncPackStep acc =
      (packs.filter
        (fun p => !(qualifiesPack p.name && p.isFile && p.parsed.isNone))).foldlM
        syncPackStep acc := by
  induction packs generalizing acc with
  | nil => rfl
  | cons q rest ih =>
    by_cases hq : (qualifiesPack q.name && q.isFile && q.parsed.isNone) = true
    · obtain ⟨⟨h1, h2⟩, h3⟩ : (qualifiesPack q.name = true ∧ q.isFile = true) ∧
          q.parsed.isNone = true := by
        simpa [Bool.and_eq_true] using hq
      have hnone : q.parsed = none := by
        simpa [Option.isNone_iff_eq_none] using h3
      have hstep : syncPackStep acc q = pure acc := by
        unfold syncPackStep
        rw [h1, h2, hnone]
        rfl
      have hfilter :
          ((q :: rest).filter
            (fun p => !(qualifiesPack p.name && p.isFile && p.parsed.isNone)))
            = rest.filter
              (fun p => !(qualifiesPack p.name && p.isFile && p.parsed.isNone)) := by
        apply List.filter_cons_of_neg
        simp [hq]
      rw [hfilter]
      simp only [List.foldlM_cons]
      rw [hstep]
      exact ih acc
    · have hfilter :
          ((q :: rest).filter
            (fun p => !(qualifiesPack p.name && p.isFile && p.parsed.isNone)))
            = q :: rest.filter
              (fun p => !(qualifiesPack p.name && p.isFile && p.parsed.isNone)) := by
        apply List.filter_cons_of_pos
        simp [hq]
      rw [hfilter]
      simp only [List.foldlM_cons]
      cases hstep : syncPackStep acc q with
      | error msg => rfl
      | ok acc' => exact ih acc'

/-- Every line kept by a successful `filter_uploads_lines` run is a
line the per-line body keeps. -/
theorem filter_kept_are_keep (lines : List UploadLine) (present : List String) :
    ∀ kept removed,
      filter_uploads_lines lines present = .ok (kept, removed) →
      ∀ ln ∈ kept, lineStep present ln = .keep := by
  induction lines with
  | nil =>
    intro kept removed h ln hln
    simp only [filter_uploads_lines, Except.ok.injEq, Prod.mk.injEq] at h
    obtain ⟨hk, -⟩ := h
    rw [← hk] at hln
    cases hln
  | cons ln0 rest ih =>
    intro kept removed h ln hln
    simp only [filter_uploads_lines] at h
    cases hs : lineStep present ln0 with
    | raise =>
      rw [hs] at h
      simp at h
    | keep =>
      rw [hs] at h
      cases hrec : filter_uploads_lines rest present with
      | error e =>
        rw [hrec] at h
        simp at h
      | ok pr =>
        obtain ⟨k, r⟩ := pr
        rw [hrec] at h
        simp only [Except.ok.injEq, Prod.mk.injEq] at h
        obtain ⟨hk, -⟩ := h
        rw [← hk] at hln
        rcases List.mem_cons.mp hln with rfl | hmem
        · exact hs
        · exact ih k r hrec ln hmem
    | remove o =>
      rw [hs] at h
      cases hrec : filter_uploads_lines rest present with
      | error e =>
        rw [hrec] at h
        simp at h
      | ok pr =>
        obtain ⟨k, r⟩ := pr
        rw [hrec] at h
        simp only [Except.ok.injEq, Prod.mk.injEq] at h
        obtain ⟨hk, -⟩ := h
        rw [← hk] at hln
        exact ih k r hrec ln hln

/-- Filtering a list of lines the per-line body keeps returns the
lines unchanged and removes nothing. -/
theorem filter_of_all_keep (lines : List UploadLine) (present : List String)
    (h : ∀ ln ∈ lines, lineStep present ln = .keep) :
    filter_uploads_lines lines present = .ok (lines, []) := by
  induction lines with
  | nil => rfl
  | cons ln0 rest ih =>
    have h0 : lineStep present ln0 = .keep := h ln0 (List.mem_cons_self _ _)
    have hrec : filter_uploads_lines rest present = .ok (rest, []) :=
      ih (fun ln hln => h ln (List.mem_cons_of_mem _ hln))
    simp only [filter_uploads_lines]
    rw [h0, hrec]

/-- Replacing the value stored at `k` leaves `find?` for another key
unchanged. -/
theorem find?_map_set_ne (fs : List (String × JsonVal)) (k k' : String)
    (v : JsonVal) (h : k' ≠ k) :
    (fs.map (fun p => if p.1 == k then (k, v) else p)).find?
        (fun p => p.1 == k')
      = fs.find? (fun p => p.1 == k') := by
  induction fs with
  | nil => rfl
  | cons p rest ih =>
    by_cases hp : (p.1 == k) = true
    · have hpk : p.1 = k := by simpa using hp
      have hnew : ((k, v).1 == k') = false := by
        simp [beq_eq_false_iff_ne]
        exact fun hkk => h hkk.symm
      have hold : (p.1 == k') = false := by
        rw [hpk]
        simpa using hnew
      simp only [List.map_cons, if_pos hp]
      rw [List.find?_cons_of_neg _ (by simp [hnew]),
        List.find?_cons_of_neg _ (by simp [hold])]
      exact ih
    · simp only [List.map_cons, if_neg hp]
      by_cases hq : (p.1 == k') = true
      · rw [List.find?_cons_of_pos _ (by simp [hq]),
          List.find?_cons_of_pos _ (by simp [hq])]
      · rw [List.find?_cons_of_neg _ (by simp [hq]),
          List.find?_cons_of_neg _ (by simp [hq])]
        exact ih

/-- Python's `obj[k] = v` does not change lookups of a different key. -/
theorem lookupField_setField_ne (fs : List (String × JsonVal))
    (k k' : String) (v : JsonVal) (h : k' ≠ k) :
    lookupField (setField fs k v) k' = lookupField fs k' := by
  unfold setField lookupField
  by_cases hany : fs.any (fun p => p.1 == k) = true
  · rw [if_pos hany, find?_map_set_ne fs k k' v h]
  · rw [if_neg hany, List.find?_append]
    have hsingle : ([(k, v)].find? (fun p => p.1 == k')) = none := by
      rw [List.find?_cons_of_neg]
      · rfl
      · simp [beq_eq_false_iff_ne]
        exact fun hkk => h hkk.symm
    rw [hsingle, Option.or_none]

/-- A removed object produced by the per-line body always carries a
string `url` field (so the sync loop extracts a media ID from it). -/
theorem lineStep_remove_url (present : List String) (ln : UploadLine)
    (o : JsonVal) (h : lineStep present ln = .remove o) :
    (removedUrlMediaId o).isSome = true := by
  cases ln with
  | blank r => simp [lineStep] at h
  | notJson r => simp [lineStep] at h
  | jsonLine r v =>
    cases v with
    | null => simp [lineStep] at h
    | bool b => simp [lineStep] at h
    | num n => simp [lineStep] at h
    | str s => simp [lineStep] at h
    | arr xs => simp [lineStep] at h
    | obj fs =>
      simp only [lineStep] at h
      cases hurl : lookupField fs "url" with
      | none =>
        rw [hurl] at h
        simp at h
      | some u =>
        cases u with
        | null => rw [hurl] at h; simp at h
        | bool b => rw [hurl] at h; simp at h
        | num n => rw [hurl] at h; simp at h
        | arr xs => rw [hurl] at h; simp at h
        | obj fs' => rw [hurl] at h; simp at h
        | str url =>
          rw [hurl] at h
          simp only [] at h
          by_cases hmem : extract_media_id_from_url url ∈ present
          · rw [if_pos hmem] at h
            simp at h
          · rw [if_neg hmem] at h
            simp only [LineStep.remove.injEq] at h
            rw [← h]
            simp only [removedUrlMediaId]
            rw [lookupField_setField_ne fs "purpose" "url" _ (by decide), hurl]
            rfl

/-- Every object in the removed list of a successful
`filter_uploads_lines` run carries a string `url` field. -/
theorem filter_removed_url (lines : List UploadLine) (present : List String) :
    ∀ kept removed,
      filter_uploads_lines lines present = .ok (kept, removed) →
      ∀ o ∈ removed, (removedUrlMediaId o).isSome = true := by
  induction lines with
  | nil =>
    intro kept removed h o ho
    simp only [filter_uploads_lines, Except.ok.injEq, Prod.mk.injEq] at h
    obtain ⟨-, hr⟩ := h
    rw [← hr] at ho
    cases ho
  | cons ln0 rest ih =>
    intro kept removed h o ho
    simp only [filter_uploads_lines] at h
    cases hs : lineStep present ln0 with
    | raise =>
      rw [hs] at h
      simp at h
    | keep =>
      rw [hs] at h
      cases hrec : filter_uploads_lines rest present with
      | error e =>
        rw [hrec] at h
        simp at h
      | ok pr =>
        obtain ⟨k, r⟩ := pr
        rw [hrec] at h
        simp only [Except.ok.injEq, Prod.mk.injEq] at h
        obtain ⟨-, hr⟩ := h
        rw [← hr] at ho
        exact ih k r hrec o ho
    | remove o0 =>
      rw [hs] at h
      cases hrec : filter_uploads_lines rest present with
      | error e =>
        rw [hrec] at h
        simp at h
      | ok pr =>
        obtain ⟨k, r⟩ := pr
        rw [hrec] at h
        simp only [Except.ok.injEq, Prod.mk.injEq] at h
        obtain ⟨-, hr⟩ := h
        rw [← hr] at ho
        rcases List.mem_cons.mp ho with rfl | hmem
        · exact lineStep_remove_url present ln0 o hs
        · exact ih k r hrec o hmem

/-- `filterMap` by a function defined on every element preserves the
length. -/
theorem length_filterMap_of_isSome {α β : Type} (f : α → Option β)
    (l : List α) (h : ∀ x ∈ l, (f x).isSome = true) :
    (l.filterMap f).length = l.length := by
  induction l with
  | nil => rfl
  | cons a as ih =>
    cases hf : f a with
    | none =>
      have := h a (List.mem_cons_self _ _)
      rw [hf] at this
      cases this
    | some b =>
      rw [List.filterMap_cons_some hf]
      simp only [List.length_cons]
      rw [ih (fun x hx => h x (List.mem_cons_of_mem _ hx))]

/-! ## Claims -/

/-- C1 is false as stated: on the scenario (one pack whose sticker has
`id = "mxc://s/a1"` and `info.thumbnail_url = "mxc://s/b2"`;
thumbnails `a1`, `b2`, `c3`), the pruning collector returns only
`{"b2"}` — it never reads the sticker's `id` field — so the live
pruning run deletes `a1` and `c3` and returns count 2, not exactly
`c3` with count 1. -/
theorem C1_counterexample :
    collect_used_thumbnails [scenarioPack] = .ok ["b2"] ∧
    (rmUnusedThumbsMain scenarioRmEnv).deleted = ["a1", "c3"] ∧
    (remove_unused_thumbnails scenarioThumbs ["b2"] false (fun _ => true)).count = 2 ∧
    ¬ ((remove_unused_thumbnails scenarioThumbs ["b2"] false (fun _ => true)).count = 1 ∧
       (remove_unused_thumbnails scenarioThumbs ["b2"] false (fun _ => true)).deleted
         = ["c3"]) :=
  ⟨rfl, rfl, rfl, by decide⟩

/-- C1 (amended): on the scenario, the pruning collector
(`collect_used_thumbnails`) puts only the `info.thumbnail_url` media
ID `b2` into the reference set — the sticker `id` is collected only by
the upload-sync collector (`collect_media_ids_from_packs`) — so the
pruning workflow with `dry_run = false` deletes exactly the files `a1`
and `c3` and returns removed count 2, exiting 0. -/
theorem C1_amended :
    collect_used_thumbnails [scenarioPack] = .ok ["b2"] ∧
    collect_media_ids_from_packs [scenarioPack] = .ok ["a1", "b2"] ∧
    (rmUnusedThumbsMain scenarioRmEnv).deleted = ["a1", "c3"] ∧
    (rmUnusedThumbsMain scenarioRmEnv).exitCode = 0 ∧
    (remove_unused_thumbnails scenarioThumbs ["b2"] false (fun _ => true)).count = 2 :=
  ⟨rfl, rfl, rfl, rfl, rfl⟩

/-- C2 is false as stated: in a run of `sync_uploads.main` where the
required paths exist, one entry is removed and its
`set_media_purpose` call returns `404` (outside `[200, 300)`), the
process still exits 0, not 1. -/
theorem C2_counterexample :
    (syncUploadsMain envC2).httpRequests = ["z9"] ∧
    statusOk (set_media_purpose (envC2.http "z9")).status = false ∧
    (syncUploadsMain envC2).exitCode = 0 ∧
    ¬ (syncUploadsMain envC2).exitCode = 1 :=
  ⟨rfl, rfl, rfl, by decide⟩

/-- C3: the claim is right and the code is wrong.  A line that is
valid JSON but not an object (e.g. `[1, 2]`) lacks a `url` field, so
per the claim (and the function's own docstring) it must be kept
verbatim; instead `obj.get("url")` raises an uncaught
`AttributeError`, aborting the whole call.  The remaining conjuncts
evaluate the claimed per-line behaviour on the cases the code does
handle: blank kept, non-JSON kept, missing-`url` object kept,
referenced entry kept, unreferenced entry dropped into the removed
list with `purpose` forced to `"none"`. -/
theorem C3_nonobject_json_line_raises :
    filter_uploads_lines [.jsonLine "[1, 2]" (.arr [.num 1, .num 2])] ["a1"]
      = .error "AttributeError: non-object JSON line" ∧
    filter_uploads_lines [.blank "  "] ["a1"] = .ok ([.blank "  "], []) ∧
    filter_uploads_lines [.notJson "not json"] ["a1"]
      = .ok ([.notJson "not json"], []) ∧
    filter_uploads_lines [.jsonLine "\x7b\x7d" (.obj [])] ["a1"]
      = .ok ([.jsonLine "\x7b\x7d" (.obj [])], []) ∧
    filter_uploads_lines
        [.jsonLine "\x7b\"url\": \"mxc://s/a1\"\x7d" (.obj [("url", .str "mxc://s/a1")])]
        ["a1"]
      = .ok ([.jsonLine "\x7b\"url\": \"mxc://s/a1\"\x7d"
               (.obj [("url", .str "mxc://s/a1")])], []) ∧
    filter_uploads_lines
        [.jsonLine "\x7b\"url\": \"mxc://s/z9\"\x7d" (.obj [("url", .str "mxc://s/z9")])]
        ["a1"]
      = .ok ([], [.obj [("url", .str "mxc://s/z9"), ("purpose", .str "none")]]) :=
  ⟨rfl, rfl, rfl, rfl, rfl, rfl⟩

/-- C7: `set_media_purpose` is total over every transport outcome — a
2xx/3xx response yields its status and body, an `HTTPError` (such as a
`404`) yields that HTTP status with the error body captured, and any
other exception yields status `0` with the exception text as body
(never a success, since `0 ∉ [200, 300)`); the callers' success
criterion `statusOk` holds exactly when the status lies in
`[200, 300)`. -/
theorem C7_set_media_purpose_total :
    ∀ (st c : Nat) (b d : String),
      set_media_purpose (.success st b) = { status := st, body := b } ∧
      set_media_purpose (.httpError c b) = { status := c, body := b } ∧
      set_media_purpose (.httpError 404 b) = { status := 404, body := b } ∧
      set_media_purpose (.transportError d) = { status := 0, body := d } ∧
      statusOk (set_media_purpose (.transportError d)).status = false ∧
      (∀ r : PurgeResult, statusOk r.status = true ↔ (200 ≤ r.status ∧ r.status < 300)) :=
  fun _ _ _ _ =>
    ⟨rfl, rfl, rfl, rfl, rfl, fun r => by
      simp [statusOk, Bool.and_eq_true, decide_eq_true_iff]⟩

/-- C4: for every thumbnails directory listing and reference set
`used`, the pruner's candidate list is exactly the set difference
(membership iff listed-and-not-used); names in `used` are never passed
to `os.remove` nor deleted; the dry-run return value is the candidate
count, and the live return value is the number of successfully deleted
files (the candidates on which `os.remove` succeeded). -/
theorem C4_pruner_set_difference :
    ∀ (entries : List ThumbEntry) (used : List String) (removeOk : String → Bool),
      (∀ x : String,
        x ∈ toRemoveList (list_thumbnails entries) used ↔
          (x ∈ list_thumbnails entries ∧ x ∉ used)) ∧
      (∀ x ∈ used, x ∉ (remove_unused_thumbnails entries used false removeOk).attempted) ∧
      (∀ x ∈ used, x ∉ (remove_unused_thumbnails entries used false removeOk).deleted) ∧
      (remove_unused_thumbnails entries used true removeOk).count
        = (toRemoveList (list_thumbnails entries) used).length ∧
      (remove_unused_thumbnails entries used false removeOk).deleted
        = (toRemoveList (list_thumbnails entries) used).filter removeOk ∧
      (remove_unused_thumbnails entries used false removeOk).count
        = (remove_unused_thumbnails entries used false removeOk).deleted.length := by
  intro entries used removeOk
  have hmem : ∀ x : String,
      x ∈ toRemoveList (list_thumbnails entries) used ↔
        (x ∈ list_thumbnails entries ∧ x ∉ used) := by
    intro x
    simp [toRemoveList, List.mem_filter]
  refine ⟨hmem, ?_, ?_, rfl, rfl, rfl⟩
  · intro x hx hmem'
    exact ((hmem x).mp hmem').2 hx
  · intro x hx hmem'
    have : x ∈ toRemoveList (list_thumbnails entries) used :=
      List.mem_of_mem_filter hmem'
    exact ((hmem x).mp this).2 hx

/-- Witness for C4 at the scenario listing: `b2` (referenced) is never
passed to `os.remove`, and `c3` is a candidate iff it is listed and
unreferenced. -/
theorem C4_witness :
    "b2" ∉ (remove_unused_thumbnails scenarioThumbs ["b2"] false (fun _ => true)).attempted ∧
    ("c3" ∈ toRemoveList (list_thumbnails scenarioThumbs) ["b2"] ↔
      ("c3" ∈ list_thumbnails scenarioThumbs ∧ "c3" ∉ ["b2"])) :=
  ⟨(C4_pruner_set_difference scenarioThumbs ["b2"] (fun _ => true)).2.1 "b2" (by decide),
   (C4_pruner_set_difference scenarioThumbs ["b2"] (fun _ => true)).1 "c3"⟩

/-- C2 (amended): only `keep_mmr.main` implements the claimed rule —
its exit code is 1 exactly when the uploads file is missing or (in a
live run) some `set_media_purpose` call returned a status outside
`[200, 300)`, and 0 otherwise (including a no-op run).  The other two
entry points exit 1 only when a required path is missing or an
exception escapes (bad pack JSON, non-object upload line):
`sync_uploads.main` returns 0 whenever the run completes, even when
`set_media_purpose` calls fail, and `rm_unused_thumbs.main` exits 0
even when deletions fail. -/
theorem C2_amended :
    ∀ (e : KeepMmrEnv) (s : SyncEnv) (r : RmEnv),
      ((keepMmrMain e).exitCode = 1 ↔
        (e.uploadsFileExists = false ∨
          (e.uploadsFileExists = true ∧ e.dryRun = false ∧
            ∃ mid ∈ e.uploadsLines.filterMap extract_media_id,
              statusOk (set_media_purpose (e.http mid)).status = false))) ∧
      (s.packsDirExists = false → (syncUploadsMain s).exitCode = 1) ∧
      (s.uploadsFileExists = false → (syncUploadsMain s).exitCode = 1) ∧
      (∀ (present : List String) (filtered : List UploadLine) (removedObjs : List JsonVal),
        s.packsDirExists = true → s.uploadsFileExists = true →
        collect_media_ids_from_packs s.packs = .ok present →
        filter_uploads_lines s.uploadsLines present = .ok (filtered, removedObjs) →
        (syncUploadsMain s).exitCode = 0) ∧
      (∀ used : List String,
        r.packsDirExists = true → r.thumbsDirExists = true →
        collect_used_thumbnails r.packs = .ok used →
        (rmUnusedThumbsMain r).exitCode = 0) := by
  intro e s r
  refine ⟨?_, ?_, ?_, ?_, ?_⟩
  · rw [keepMmr_exit_eq]
    by_cases h1 : e.uploadsFileExists = false
    · simp [h1]
    · have h1' : e.uploadsFileExists = true := by simpa using h1
      by_cases h2 : e.dryRun = true
      · simp [h1, h1', h2]
      · have h2' : e.dryRun = false := by simpa using h2
        by_cases h3 :
            ((e.uploadsLines.filterMap extract_media_id).filter
              (fun mid => !statusOk (set_media_purpose (e.http mid)).status)).length = 0
        · rw [if_neg h1, if_neg h2, if_pos h3]
          rw [List.length_eq_zero, List.filter_eq_nil_iff] at h3
          rw [h1', h2']
          constructor
          · intro h
            exact absurd h (by decide)
          · rintro (h | ⟨-, -, mid, hmid, hbad⟩)
            · exact absurd h (by decide)
            · exact (h3 mid hmid (by simp [hbad])).elim
        · rw [if_neg h1, if_neg h2, if_neg h3]
          have hne : ((e.uploadsLines.filterMap extract_media_id).filter
              (fun mid => !statusOk (set_media_purpose (e.http mid)).status)) ≠ [] := by
            intro hnil
            exact h3 (by rw [hnil]; rfl)
          obtain ⟨x, hx⟩ := List.exists_mem_of_ne_nil _ hne
          have hx' := List.mem_filter.mp hx
          exact iff_of_true rfl
            (Or.inr ⟨h1', h2', x, hx'.1, by simpa using hx'.2⟩)
  · intro h
    simp [syncUploadsMain, h]
  · intro h
    cases hp : s.packsDirExists with
    | false => simp [syncUploadsMain, hp]
    | true =>
      cases hc : collect_media_ids_from_packs s.packs with
      | error msg => simp [syncUploadsMain, hp, hc]
      | ok present => simp [syncUploadsMain, hp, hc, h]
  · intro present filtered removedObjs hp hu hc hf
    simp only [syncUploadsMain, hp, hu, hc, hf]
    by_cases hd : s.dryRun = true
    · simp [hd]
    · by_cases hz : removedObjs.length = 0 <;> simp [hd, hz]
  · intro used hp ht hc
    simp [rmUnusedThumbsMain, hp, ht, hc]

/-- Witness for C2 (amended): concrete runs — `keep_mmr` with a `404`
exits 1; the `sync_uploads` run of the counterexample completes and
exits 0; the scenario pruning run exits 0. -/
theorem C2_amended_witness :
    (keepMmrMain
      { uploadsFileExists := true,
        uploadsLines :=
          [.jsonLine "\x7b\"url\": \"mxc://s/z9\"\x7d" (.obj [("url", .str "mxc://s/z9")])],
        dryRun := false, http := fun _ => .httpError 404 "not found" }).exitCode = 1 ∧
    (syncUploadsMain envC2).exitCode = 0 ∧
    (rmUnusedThumbsMain scenarioRmEnv).exitCode = 0 :=
  ⟨(C2_amended
      { uploadsFileExists := true,
        uploadsLines :=
          [.jsonLine "\x7b\"url\": \"mxc://s/z9\"\x7d" (.obj [("url", .str "mxc://s/z9")])],
        dryRun := false, http := fun _ => .httpError 404 "not found" }
      envC2 scenarioRmEnv).1.mpr
      (Or.inr ⟨rfl, rfl, "z9", by decide, rfl⟩),
   (C2_amended
      { uploadsFileExists := true,
        uploadsLines :=
          [.jsonLine "\x7b\"url\": \"mxc://s/z9\"\x7d" (.obj [("url", .str "mxc://s/z9")])],
        dryRun := false, http := fun _ => .httpError 404 "not found" }
      envC2 scenarioRmEnv).2.2.2.1
      ["a1", "b2"] []
      [.obj [("url", .str "mxc://s/z9"), ("purpose", .str "none")]]
      rfl rfl rfl rfl,
   (C2_amended
      { uploadsFileExists := true,
        uploadsLines :=
          [.jsonLine "\x7b\"url\": \"mxc://s/z9\"\x7d" (.obj [("url", .str "mxc://s/z9")])],
        dryRun := false, http := fun _ => .httpError 404 "not found" }
      envC2 scenarioRmEnv).2.2.2.2
      ["b2"] rfl rfl rfl⟩

/-- C9: media-ID extraction (`_extract_media_id_from_url`) is total —
it is a plain function on all strings, raising nothing — and
permissive: the empty string and any string without `/` come back
unchanged, and for any string containing `/`, re-joining the prefix
before the last `/` with `/` and the extracted suffix round-trips to
the original string. -/
theorem C9_extraction_round_trip (s : String) :
    (s = "" → extract_media_id_from_url s = s) ∧
    ('/' ∉ s.data → extract_media_id_from_url s = s) ∧
    ('/' ∈ s.data →
      beforeLastSlash s ++ "/" ++ extract_media_id_from_url s = s) := by
  refine ⟨?_, ?_, ?_⟩
  · intro h; subst h; rfl
  · intro h
    unfold extract_media_id_from_url
    have hall : ∀ c ∈ s.data.reverse, (c != '/') = true := by
      intro c hc
      simp only [bne_iff_ne, ne_eq]
      intro hcEq
      subst hcEq
      exact h (List.mem_reverse.mp hc)
    rw [List.takeWhile_eq_self_iff.mpr hall, List.reverse_reverse]
  · intro h
    obtain ⟨t, ht⟩ :=
      dropWhile_slash_cons s.data.reverse (List.mem_reverse.mpr h)
    have hb : beforeLastSlash s = String.mk t.reverse := by
      unfold beforeLastSlash
      rw [ht, List.drop_one, List.tail_cons]
    apply string_eq_of_data_eq
    rw [hb]
    calc (String.mk t.reverse ++ "/" ++ extract_media_id_from_url s).data
        = (t.reverse ++ ['/']) ++
            (s.data.reverse.takeWhile (fun c => c != '/')).reverse := rfl
      _ = ('/' :: t).reverse ++
            (s.data.reverse.takeWhile (fun c => c != '/')).reverse := by
          rw [List.reverse_cons]
      _ = ((s.data.reverse.takeWhile (fun c => c != '/')) ++ ('/' :: t)).reverse := by
          rw [List.reverse_append]
      _ = ((s.data.reverse.takeWhile (fun c => c != '/')) ++
            (s.data.reverse.dropWhile (fun c => c != '/'))).reverse := by
          rw [ht]
      _ = (s.data.reverse).reverse := by
          rw [List.takeWhile_append_dropWhile]
      _ = s.data := List.reverse_reverse _

/-- Witness for C9: the round trip at `"mxc://s/a1"` and the
unchanged-return at a slash-free and at the empty string. -/
theorem C9_witness :
    beforeLastSlash "mxc://s/a1" ++ "/" ++ extract_media_id_from_url "mxc://s/a1"
      = "mxc://s/a1" ∧
    extract_media_id_from_url "abc" = "abc" ∧
    extract_media_id_from_url "" = "" :=
  ⟨(C9_extraction_round_trip "mxc://s/a1").2.2 (by decide),
   (C9_extraction_round_trip "abc").2.1 (by decide),
   (C9_extraction_round_trip "").1 rfl⟩

/-- C6: a pack file that fails JSON parsing is handled by two distinct
per-call-site policies — the pruning collector
(`collect_used_thumbnails`) raises an error aborting the whole run
whenever the listing contains a qualifying regular file that fails to
parse, while the upload-sync collector
(`collect_media_ids_from_packs`) skips such files (warning only) and
collects exactly what it collects from the remaining pack files. -/
theorem C6_parse_error_policies (packs : List PackFile) :
    ((∃ p ∈ packs, qualifiesPack p.name = true ∧ p.isFile = true ∧
        p.parsed = none) →
      ∃ msg, collect_used_thumbnails packs = .error msg) ∧
    collect_media_ids_from_packs packs =
      collect_media_ids_from_packs
        (packs.filter
          (fun p => !(qualifiesPack p.name && p.isFile && p.parsed.isNone))) :=
  ⟨fun h => rm_fold_error_of_bad packs [] h, sync_fold_skips_bad packs []⟩

/-- Witness for C6: with one unparseable pack next to the scenario
pack, pruning collection aborts while upload-sync collection still
returns both media IDs of the good pack. -/
theorem C6_witness :
    (∃ msg, collect_used_thumbnails [badPack, scenarioPack] = .error msg) ∧
    collect_media_ids_from_packs [badPack, scenarioPack] = .ok ["a1", "b2"] :=
  ⟨(C6_parse_error_policies [badPack, scenarioPack]).1
      ⟨badPack, List.mem_cons_self badPack _, by decide, rfl, rfl⟩,
   rfl⟩

/-- C5: the upload-log filter is idempotent — whenever
`filter_uploads_lines` succeeds, re-filtering its kept output with the
same reference set returns that output unchanged with an empty removed
list. -/
theorem C5_filter_idempotent
    (lines : List UploadLine) (present : List String)
    (kept : List UploadLine) (removed : List JsonVal)
    (h : filter_uploads_lines lines present = .ok (kept, removed)) :
    filter_uploads_lines kept present = .ok (kept, []) :=
  filter_of_all_keep kept present (filter_kept_are_keep lines present kept removed h)

/-- Witness for C5: a first pass that keeps a blank line and an `a1`
entry while removing a `z9` entry; the second pass over the kept
output returns it unchanged and removes nothing. -/
theorem C5_witness :
    filter_uploads_lines
        [UploadLine.blank "",
         UploadLine.jsonLine "\x7b\"url\": \"mxc://s/a1\"\x7d"
           (.obj [("url", .str "mxc://s/a1")])]
        ["a1"]
      = .ok ([UploadLine.blank "",
              UploadLine.jsonLine "\x7b\"url\": \"mxc://s/a1\"\x7d"
                (.obj [("url", .str "mxc://s/a1")])], []) :=
  C5_filter_idempotent
    [UploadLine.blank "",
     UploadLine.jsonLine "\x7b\"url\": \"mxc://s/a1\"\x7d"
       (.obj [("url", .str "mxc://s/a1")]),
     UploadLine.jsonLine "\x7b\"url\": \"mxc://s/z9\"\x7d"
       (.obj [("url", .str "mxc://s/z9")])]
    ["a1"]
    [UploadLine.blank "",
     UploadLine.jsonLine "\x7b\"url\": \"mxc://s/a1\"\x7d"
       (.obj [("url", .str "mxc://s/a1")])]
    [.obj [("url", .str "mxc://s/z9"), ("purpose", .str "none")]]
    rfl

/-- C8: dry-run purity.  With the dry-run flag, the pruner calls
`os.remove` on nothing and deletes nothing while returning the number
of files a live run would attempt to delete; `keep_mmr.main` sends no
HTTP request and previews exactly the media IDs a live run would POST;
`sync_uploads.main` sends no HTTP request, never rewrites the uploads
file, and reports exactly as many removed entries as the live run
would send `purpose=none` requests for.  (The side-channel removal
file of the module docstring is never written by any run, dry or
live.) -/
theorem C8_dry_run_purity :
    ∀ (entries : List ThumbEntry) (used : List String) (removeOk : String → Bool)
      (ufe : Bool) (lines : List UploadLine) (http : String → HttpOutcome)
      (pde : Bool) (packs : List PackFile),
      (remove_unused_thumbnails entries used true removeOk).attempted = [] ∧
      (remove_unused_thumbnails entries used true removeOk).deleted = [] ∧
      (remove_unused_thumbnails entries used true removeOk).count
        = (remove_unused_thumbnails entries used false removeOk).attempted.length ∧
      (keepMmrMain ⟨ufe, lines, true, http⟩).httpRequests = [] ∧
      (keepMmrMain ⟨ufe, lines, true, http⟩).previewed
        = (keepMmrMain ⟨ufe, lines, false, http⟩).httpRequests ∧
      (syncUploadsMain ⟨pde, packs, ufe, lines, true, http⟩).httpRequests = [] ∧
      (syncUploadsMain ⟨pde, packs, ufe, lines, true, http⟩).wroteUploads = none ∧
      (syncUploadsMain ⟨pde, packs, ufe, lines, true, http⟩).removedCount
        = (syncUploadsMain ⟨pde, packs, ufe, lines, false, http⟩).httpRequests.length := by
  intro entries used removeOk ufe lines http pde packs
  have hsync : ∀ present filtered removedObjs,
      filter_uploads_lines lines present = .ok (filtered, removedObjs) →
      (removedObjs.filterMap removedUrlMediaId).length = removedObjs.length :=
    fun present filtered removedObjs hf =>
      length_filterMap_of_isSome removedUrlMediaId removedObjs
        (filter_removed_url lines present filtered removedObjs hf)
  refine ⟨rfl, rfl, rfl, ?_, ?_, ?_, ?_, ?_⟩
  · cases ufe with
    | false => rfl
    | true =>
      by_cases hemp : (lines.filterMap extract_media_id).isEmpty = true <;>
        simp [keepMmrMain, hemp]
  · cases ufe with
    | false => rfl
    | true =>
      by_cases hemp : (lines.filterMap extract_media_id).isEmpty = true <;>
        simp [keepMmrMain, hemp]
  · cases pde with
    | false => rfl
    | true =>
      cases hc : collect_media_ids_from_packs packs with
      | error msg => simp [syncUploadsMain, hc]
      | ok present =>
        cases ufe with
        | false => simp [syncUploadsMain, hc]
        | true =>
          cases hf : filter_uploads_lines lines present with
          | error e => simp [syncUploadsMain, hc, hf]
          | ok pr =>
            obtain ⟨filtered, removedObjs⟩ := pr
            simp [syncUploadsMain, hc, hf]
  · cases pde with
    | false => rfl
    | true =>
      cases hc : collect_media_ids_from_packs packs with
      | error msg => simp [syncUploadsMain, hc]
      | ok present =>
        cases ufe with
        | false => simp [syncUploadsMain, hc]
        | true =>
          cases hf : filter_uploads_lines lines present with
          | error e => simp [syncUploadsMain, hc, hf]
          | ok pr =>
            obtain ⟨filtered, removedObjs⟩ := pr
            simp [syncUploadsMain, hc, hf]
  · cases pde with
    | false => rfl
    | true =>
      cases hc : collect_media_ids_from_packs packs with
      | error msg => simp [syncUploadsMain, hc]
      | ok present =>
        cases ufe with
        | false => simp [syncUploadsMain, hc]
        | true =>
          cases hf : filter_uploads_lines lines present with
          | error e => simp [syncUploadsMain, hc, hf]
          | ok pr =>
            obtain ⟨filtered, removedObjs⟩ := pr
            simp only [syncUploadsMain, hc, hf]
            by_cases hz : removedObjs.length = 0
            · simp [hz]
            · simp [hz, hsync present filtered removedObjs hf]

/-- C10: the pinning workflow's per-line extractor
(`keep_mmr._extract_media_id`) is stricter than and different from the
§4.1 extractor: it returns `none` for a non-JSON line, a blank line, a
missing `url` field, a non-object JSON line, or a `url` not starting
with `mxc://`; when the `url` does start with `mxc://` it returns the
entire substring after the first `/` of the remainder (`none` when
there is no `/` or nothing non-empty follows it) — so for
`mxc://s/a/b` it yields `a/b` where §4.1 yields `b`.  `keep_mmr.main`
counts exactly the `none` lines as invalid and, in a live run, POSTs
exactly the extracted IDs. -/
theorem C10_keep_mmr_extractor :
    ∀ (e : KeepMmrEnv) (r url : String) (fs : List (String × JsonVal)) (v : JsonVal),
      extract_media_id (.jsonLine r (.obj [("url", .str "mxc://s/a/b")]))
        = some "a/b" ∧
      extract_media_id_from_url "mxc://s/a/b" = "b" ∧
      extract_media_id (.notJson r) = none ∧
      extract_media_id (.blank r) = none ∧
      (lookupField fs "url" = none →
        extract_media_id (.jsonLine r (.obj fs)) = none) ∧
      ((∀ u, v ≠ JsonVal.obj u) → extract_media_id (.jsonLine r v) = none) ∧
      (List.isPrefixOf "mxc://".data url.data = false →
        extract_media_id (.jsonLine r (.obj [("url", .str url)])) = none) ∧
      (List.isPrefixOf "mxc://".data url.data = true →
        extract_media_id (.jsonLine r (.obj [("url", .str url)]))
          = match afterFirstSlash (String.mk (url.data.drop 6)) with
            | some tail => if tail = "" then none else some tail
            | none => none) ∧
      (e.uploadsFileExists = true →
        (keepMmrMain e).invalidCount
          = (e.uploadsLines.filter (fun ln => extract_media_id ln = none)).length) ∧
      (e.uploadsFileExists = true → e.dryRun = false →
        (keepMmrMain e).httpRequests = e.uploadsLines.filterMap extract_media_id) := by
  intro e r url fs v
  have hfilter_eq :
      (e.uploadsLines.filter (fun ln => (extract_media_id ln).isNone))
        = (e.uploadsLines.filter (fun ln => extract_media_id ln = none)) := by
    apply List.filter_congr
    intro ln _
    cases extract_media_id ln <;> simp
  refine ⟨rfl, rfl, rfl, rfl, ?_, ?_, ?_, ?_, ?_, ?_⟩
  · intro h
    simp [extract_media_id, h]
  · intro h
    cases v with
    | obj u => exact absurd rfl (h u)
    | null => rfl
    | bool b => rfl
    | num n => rfl
    | str s => rfl
    | arr xs => rfl
  · intro h
    have hp : ¬ ("mxc://".data <+: url.data) := by
      simpa [← List.isPrefixOf_iff_prefix] using h
    simp [extract_media_id, lookupField, hp]
  · intro h
    have hp : ("mxc://".data <+: url.data) := by
      simpa [← List.isPrefixOf_iff_prefix] using h
    by_cases hsl : '/' ∈ url.data.drop 6 <;>
      simp [extract_media_id, lookupField, pySplitOnce, afterFirstSlash, hp, hsl]
  · intro h
    rw [← hfilter_eq]
    by_cases hemp : (e.uploadsLines.filterMap extract_media_id).isEmpty = true <;>
      by_cases hd : e.dryRun = true <;>
        simp [keepMmrMain, h, hemp, hd]
  · intro h hd
    by_cases hemp : (e.uploadsLines.filterMap extract_media_id).isEmpty = true
    · have : e.uploadsLines.filterMap extract_media_id = [] := by
        simpa [List.isEmpty_iff] using hemp
      simp [keepMmrMain, h, hemp, this]
    · simp [keepMmrMain, h, hemp, hd]

/-- Witness for C10: concrete evaluations — empty object, non-object
line, non-`mxc` url, the multi-segment `mxc://s/a/b` url, and a
`keep_mmr.main` run counting one invalid line and POSTing one ID. -/
theorem C10_witness :
    extract_media_id (.jsonLine "x" (.obj [])) = none ∧
    extract_media_id (.jsonLine "x" (.arr [])) = none ∧
    extract_media_id (.jsonLine "x" (.obj [("url", .str "https://mtx01.cc/a")]))
      = none ∧
    extract_media_id (.jsonLine "x" (.obj [("url", .str "mxc://s/a/b")]))
      = some "a/b" ∧
    (keepMmrMain envC10).invalidCount = 1 ∧
    (keepMmrMain envC10).httpRequests = ["q7"] := by
  refine ⟨?_, ?_, ?_, ?_, ?_, ?_⟩
  · exact (C10_keep_mmr_extractor envC10 "x" "u" [] .null).2.2.2.2.1 rfl
  · exact (C10_keep_mmr_extractor envC10 "x" "u" [] (.arr [])).2.2.2.2.2.1
      (fun u h => JsonVal.noConfusion h)
  · exact (C10_keep_mmr_extractor envC10 "x" "https://mtx01.cc/a" []
      .null).2.2.2.2.2.2.1 (by decide)
  · have h8 := (C10_keep_mmr_extractor envC10 "x" "mxc://s/a/b" []
      .null).2.2.2.2.2.2.2.1 (by decide)
    rw [h8]
    rfl
  · have h9 := (C10_keep_mmr_extractor envC10 "x" "u" [] .null).2.2.2.2.2.2.2.2.1 rfl
    rw [h9]
    rfl
  · have h10 :=
      (C10_keep_mmr_extractor envC10 "x" "u" [] .null).2.2.2.2.2.2.2.2.2 rfl rfl
    rw [h10]
    rfl

end MStickerEditor
